import Mathlib

/-!
# Verification of the forecasting & recommendation core of `personal-finance-app`

This file gives a shallow embedding of the algorithmic core of the repository
(`backend/server.js`, `backend/utils/mlModel.js`, `backend/utils/recommendations.js`)
and settles the frozen claims about it.

Modelling conventions:

* JavaScript numbers are modelled as exact rationals (`ℚ`).  The only places where
  IEEE-754 special values matter are divisions that can produce `NaN` or `Infinity`;
  those functions return `Option` values, with `none` standing for a `NaN` result
  (`NaN` propagates through `Math.round`, `Math.min` and `Math.max`, so a `NaN`
  produced by an inner division makes the whole result `NaN`).  Branches of the
  embedding that correspond to `Infinity` arithmetic are noted where they occur.
* A JavaScript plain object used as a string-keyed dictionary is modelled as an
  association list `List (String × α)` in property insertion order, which is the
  iteration order JavaScript guarantees for the non-numeric keys used here.
* `Date.prototype.toISOString().slice(0, 7)` is modelled by `monthKey` over a
  calendar date record; the time-of-day and time-zone parts of a timestamp only
  affect which calendar day/month a timestamp lands in and are absorbed into the
  date record itself.
* Functions that can throw (`ReferenceError`, `TypeError`) are modelled with
  `Except`/`Option` results; the error value records the exception.
* `new Date()` (the current time) is passed explicitly as a `currentMonth` argument.
-/

/-- Left-pad a decimal digit string with zeros up to width `w`. -/
def padLeftZeros (s : String) (w : ℕ) : String :=
  String.mk (List.replicate (w - s.length) '0') ++ s

/-- Two-digit zero padding, the `MM` part of an ISO `YYYY-MM` month key. -/
def pad2 (n : ℕ) : String := padLeftZeros (toString n) 2

/-- Four-digit zero padding, the `YYYY` part of an ISO `YYYY-MM` month key. -/
def pad4 (n : ℕ) : String := padLeftZeros (toString n) 4

/-- A calendar date as it enters the core: the year/month/day a transaction's
timestamp falls in.  Time of day is irrelevant to the core and omitted. -/
structure JDate where
  year : ℕ
  month : ℕ
  day : ℕ
deriving DecidableEq

/-- A date the upstream validation accepts: a real calendar month in the
four-digit-year range that `toISOString` prints as `YYYY-…`. -/
def ValidDate (d : JDate) : Prop :=
  1 ≤ d.month ∧ d.month ≤ 12 ∧ 1 ≤ d.year ∧ d.year ≤ 9999

instance (d : JDate) : Decidable (ValidDate d) := by
  unfold ValidDate
  infer_instance

/-- Embeds `new Date(t.date).toISOString().slice(0, 7)` — the `YYYY-MM` ISO month key
of a date (server.js line 80). -/
def monthKey (d : JDate) : String := pad4 d.year ++ "-" ++ pad2 d.month

/-- A transaction record as stored by the backend (`transactionSchema`,
server.js lines 34-40).  The free-text `description` field is never read by the
core and is omitted. -/
structure Transaction where
  type : String
  amount : ℚ
  category : String
  date : JDate
deriving DecidableEq

/-- A budget record (`budgetSchema`, server.js lines 42-46). -/
structure Budget where
  category : String
  amount : ℚ
  type : String
deriving DecidableEq

/-- One `YYYY-MM` bucket of `getMonthlyData`: running sums of expense and
income amounts (server.js line 81). -/
structure Bucket where
  expenses : ℚ
  income : ℚ
deriving DecidableEq

/-- Property read `obj[k]` on a JavaScript object modelled as an association
list in insertion order. -/
def alookup {α : Type} (k : String) : List (String × α) → Option α
  | [] => none
  | (k', v) :: rest => if k' = k then some v else alookup k rest

/-- Property write `obj[k] = v` for a key already present: the value changes,
the key keeps its position in insertion order. -/
def aupdate {α : Type} (k : String) (v : α) : List (String × α) → List (String × α)
  | [] => []
  | (k', v') :: rest => if k' = k then (k', v) :: rest else (k', v') :: aupdate k v rest

/-- Embeds `Object.keys(obj)`: the keys in insertion order. -/
def akeys {α : Type} (m : List (String × α)) : List String := m.map Prod.fst

/-- Embeds `Math.round`: round to the nearest integer, halves toward `+∞`. -/
def jsRound (q : ℚ) : ℤ := ⌊q + 1 / 2⌋

/-- Embeds `Math.round(x * 100) / 100` — the 2-decimal rounding used throughout the core. -/
def jsRound2 (q : ℚ) : ℚ := (jsRound (q * 100) : ℚ) / 100

/-- Embeds `x.toFixed(2)` for the nonnegative values the core applies it to
(an overspend amount, always positive at its call site). -/
def toFixed2 (q : ℚ) : String :=
  let n := (jsRound (q * 100)).toNat
  toString (n / 100) ++ "." ++ padLeftZeros (toString (n % 100)) 2

/-- Smallest `k` (up to the given fuel) with `q * 10 ^ k` an integer: the number
of decimal digits JavaScript `ToString` prints for a decimal-valued number. -/
def decExpSearch (q : ℚ) : ℕ → ℕ → Option ℕ
  | _, 0 => none
  | k, fuel + 1 => if (q * 10 ^ k).den = 1 then some k else decExpSearch q (k + 1) fuel

/-- JavaScript `ToString` on a nonnegative number, for values that are decimal
fractions (every value a float holds that the core interpolates into a message
prints this way: shortest decimal expansion, no trailing zeros).  The fallback
branch for non-decimal rationals is unreachable from float inputs. -/
def jsNumToStringNN (q : ℚ) : String :=
  match decExpSearch q 0 21 with
  | none => toString q.num.toNat ++ "/" ++ toString q.den
  | some k =>
    if k = 0 then toString q.num.toNat
    else
      let m := (q * 10 ^ k).num.toNat
      toString (m / 10 ^ k) ++ "." ++ padLeftZeros (toString (m % 10 ^ k)) k

/-- JavaScript `ToString` of a number (template-literal interpolation `${x}`). -/
def jsNumToString (q : ℚ) : String :=
  if q < 0 then "-" ++ jsNumToStringNN (-q) else jsNumToStringNN q

namespace ServerJs

/-- One step of the `reduce` in `getMonthlyData` (server.js lines 79-88):
derive the month key, initialise the bucket on first sight, then add the
amount to `expenses` if the type is `"expense"`, else to `income`. -/
def addTx (acc : List (String × Bucket)) (t : Transaction) : List (String × Bucket) :=
  let k := monthKey t.date
  match alookup k acc with
  | some b =>
    if t.type = "expense" then aupdate k ⟨b.expenses + t.amount, b.income⟩ acc
    else aupdate k ⟨b.expenses, b.income + t.amount⟩ acc
  | none =>
    if t.type = "expense" then acc ++ [(k, ⟨t.amount, 0⟩)]
    else acc ++ [(k, ⟨0, t.amount⟩)]

/-- Embeds `getMonthlyData` (server.js lines 78-89): fold all transactions into
month buckets, keys in first-encounter order. -/
def getMonthlyData (ts : List Transaction) : List (String × Bucket) :=
  ts.foldl addTx []

/-- Embeds `calculateAccuracy` (server.js lines 72-76). -/
def calculateAccuracy (predicted actual : ℚ) : ℚ :=
  if actual = 0 then 0
  else min 100 (max 0 ((1 - |predicted - actual| / actual) * 100))

/-- Embeds `calculateConfidence` (server.js lines 146-152).  The mean and variance are
exact here; `Real.sqrt` models `Math.sqrt`.  The branches spell out the IEEE
consequences of `coefficientOfVariation = Math.sqrt(variance) / mean` when
`mean` is `0`: with `variance = 0` the quotient is `NaN` (modelled `none`), and
with `variance > 0` it is `+Infinity`, so `(1 - cov) * 100 = -Infinity` and the
`min`/`max` clamp yields `0`. -/
noncomputable def calculateConfidence (data : List ℚ) : Option ℝ :=
  if data.length < 2 then some 0
  else
    let mean : ℚ := data.sum / data.length
    let variance : ℚ := (data.map (fun v => (v - mean) ^ 2)).sum / data.length
    if mean = 0 then
      if variance = 0 then none else some 0
    else
      some (max 0 (min 100 ((1 - Real.sqrt (variance : ℝ) / (mean : ℝ)) * 100)))

/-- Embeds `Object.keys(monthlyData).sort()` (server.js lines 97 and 235): the month
keys in JavaScript default sort order, which on these ASCII strings is the
same lexicographic order as Lean's `String` order. -/
def monthsSorted (md : List (String × Bucket)) : List String :=
  List.insertionSort (· ≤ ·) (akeys md)

/-- Bucket lookup `monthlyData[month].expenses`; the default is never hit
because the keys looked up are always keys of the map. -/
def expensesOf (md : List (String × Bucket)) (m : String) : ℚ :=
  ((alookup m md).getD ⟨0, 0⟩).expenses

/-- Lines 96-99 of server.js: the expenses of the last three months in sorted
key order (`months.slice(-3)` keeps the whole list when fewer than three
months exist). -/
def recentExpenses (ts : List Transaction) : List ℚ :=
  let md := getMonthlyData ts
  let months := monthsSorted md
  let recentMonths := months.drop (months.length - 3)
  recentMonths.map (expensesOf md)

/-- The `{ prediction, confidence }` object returned by
`mlUtils.predictNextMonthSpending`. -/
structure PredictionResult where
  prediction : ℚ
  confidence : Option ℝ

/-- Embeds `mlUtils.predictNextMonthSpending` (server.js lines 93-105).  Note the
guard on line 94 compares `transactions.length`, the number of transactions,
against 3 — not the number of distinct months. -/
noncomputable def predictNextMonthSpending (ts : List Transaction) :
    Option PredictionResult :=
  if ts.length < 3 then none
  else some ⟨(recentExpenses ts).sum / 3, calculateConfidence (recentExpenses ts)⟩

/-- One element of the `predictions` array of the `/api/accuracy` backtest
(server.js lines 250-255). -/
structure AccuracyRecord where
  month : String
  predicted : ℚ
  actual : ℚ
  accuracy : ℚ
deriving DecidableEq

/-- The backtest loop of `/api/accuracy` (server.js lines 242-259): for each
index `i` from 3 to `months.length - 1`, predict month `i` as the mean of the
expenses of months `i-3 .. i-1` and score it against the actual expenses. -/
def backtestRecords (md : List (String × Bucket)) : List AccuracyRecord :=
  let months := monthsSorted md
  (List.range' 3 (months.length - 3)).map fun i =>
    let prevThreeMonths := (months.take i).drop (i - 3)
    let predicted := (prevThreeMonths.map (expensesOf md)).sum / 3
    let actual := expensesOf md (months.getD i "")
    ⟨months.getD i "", jsRound2 predicted, jsRound2 actual,
      jsRound2 (calculateAccuracy predicted actual)⟩

/-- A recommendation object (server.js lines 124-128 and 135-139). -/
structure Recommendation where
  category : String
  message : String
  priority : String
deriving DecidableEq

/-- The per-budget compliance loop of `mlUtils.generateRecommendations`
(server.js lines 114-130): for each budget, sum the current-month expense
transactions of its category and push a high-priority recommendation when
that sum exceeds the budget amount. -/
def budgetRecommendations (ts : List Transaction) (budgets : List Budget)
    (currentMonth : String) : List Recommendation :=
  budgets.foldl
    (fun recs budget =>
      let categoryTransactions := ts.filter fun t =>
        decide (t.category = budget.category ∧ t.type = "expense" ∧
          monthKey t.date = currentMonth)
      let categorySpending := (categoryTransactions.map Transaction.amount).sum
      if budget.amount < categorySpending then
        recs ++ [⟨budget.category,
          "Reduce spending in " ++ budget.category ++ " by $" ++
            toFixed2 (categorySpending - budget.amount), "high"⟩]
      else recs)
    []

/-- Embeds `mlUtils.generateRecommendations` (server.js lines 107-143).  After the
per-budget loop the function evaluates `months[months.length - 2]` on line 133,
but no variable `months` is declared in (or visible from) this function, so
every call throws `ReferenceError: months is not defined` before returning the
accumulated recommendations. -/
def generateRecommendations (ts : List Transaction) (budgets : List Budget)
    (currentMonth : String) : Except String (List Recommendation) :=
  let _ := budgetRecommendations ts budgets currentMonth
  Except.error "ReferenceError: months is not defined"

/-- Sum of the amounts of the expense-type transactions falling in month `k`. -/
def monthExpenseSum (k : String) (ts : List Transaction) : ℚ :=
  ((ts.filter fun t => decide (monthKey t.date = k ∧ t.type = "expense")).map
    Transaction.amount).sum

/-- Sum of the amounts of the income-type transactions falling in month `k`. -/
def monthIncomeSum (k : String) (ts : List Transaction) : ℚ :=
  ((ts.filter fun t => decide (monthKey t.date = k ∧ t.type = "income")).map
    Transaction.amount).sum

/-- Sum of the amounts of the non-expense transactions falling in month `k`
(what the `else` branch of `getMonthlyData` adds to `income`). -/
def monthNonexpSum (k : String) (ts : List Transaction) : ℚ :=
  ((ts.filter fun t => decide (monthKey t.date = k ∧ ¬t.type = "expense")).map
    Transaction.amount).sum

/-- Sum of the amounts of all transactions falling in month `k`. -/
def monthTotalSum (k : String) (ts : List Transaction) : ℚ :=
  ((ts.filter fun t => decide (monthKey t.date = k)).map Transaction.amount).sum

end ServerJs

namespace MlModel

/-- Embeds `n`, the number of data points (mlModel.js line 7). -/
def regN (ys : List ℚ) : ℚ := ys.length

/-- Embeds `sumX = Σ x_i` over `x = 0 .. n-1` (mlModel.js lines 4, 8). -/
def regSumX (ys : List ℚ) : ℚ := ((List.range ys.length).map (Nat.cast : ℕ → ℚ)).sum

/-- Embeds `sumY = Σ y_i` (mlModel.js line 9). -/
def regSumY (ys : List ℚ) : ℚ := ys.sum

/-- Embeds `sumXY = Σ x_i * y_i` (mlModel.js line 10). -/
def regSumXY (ys : List ℚ) : ℚ :=
  ((((List.range ys.length).map (Nat.cast : ℕ → ℚ)).zip ys).map fun p => p.1 * p.2).sum

/-- Embeds `sumXX = Σ x_i * x_i` (mlModel.js line 11). -/
def regSumXX (ys : List ℚ) : ℚ :=
  (((List.range ys.length).map (Nat.cast : ℕ → ℚ)).map fun x => x * x).sum

/-- The regression denominator `n * sumXX - sumX * sumX` (mlModel.js line 13). -/
def regDenom (ys : List ℚ) : ℚ := regN ys * regSumXX ys - regSumX ys * regSumX ys

/-- Embeds `calculateSpendingPrediction` (mlModel.js lines 2-19) applied to the
`amount` fields of its input records.  There is no guard on the denominator:
when it is `0` the slope is `0 / 0 = NaN`, which propagates through the
intercept, `Math.round` and `Math.max`, so the function returns `NaN`
(modelled `none`).  Note line 16 predicts at `x = n + 1`, not at `x = n`. -/
def calculateSpendingPrediction (historicalData : List ℚ) : Option ℚ :=
  if regDenom historicalData = 0 then none
  else
    let slope := (regN historicalData * regSumXY historicalData -
      regSumX historicalData * regSumY historicalData) / regDenom historicalData
    let intercept := (regSumY historicalData - slope * regSumX historicalData) /
      regN historicalData
    let nextPrediction := slope * (regN historicalData + 1) + intercept
    some (max 0 (jsRound2 nextPrediction))

end MlModel

namespace Recs

/-- The `categoryTotals` object of `findTopExpenseCategory`
(recommendations.js lines 6-11): totals of expense amounts per category,
keys in first-encounter order. -/
def categoryTotals (ts : List Transaction) : List (String × ℚ) :=
  (ts.filter fun t => decide (t.type = "expense")).foldl
    (fun acc t =>
      match alookup t.category acc with
      | some v => aupdate t.category (v + t.amount) acc
      | none => acc ++ [(t.category, t.amount)])
    []

/-- Embeds `findTopExpenseCategory` (recommendations.js lines 4-19).  The
`Array.prototype.reduce` call has no initial value, so on an empty key list it
throws `TypeError: Reduce of empty array with no initial value` (modelled
`none`); otherwise it folds with `totals[a] > totals[b] ? a : b`, so on ties
the later key wins. -/
def findTopExpenseCategory (ts : List Transaction) : Option String :=
  let totals := categoryTotals ts
  match akeys totals with
  | [] => none
  | k0 :: rest =>
    some (rest.foldl
      (fun a b => if (alookup b totals).getD 0 < (alookup a totals).getD 0 then a else b)
      k0)

/-- The `{ type, message }` object returned by the surplus-mode recommender
(recommendations.js lines 29-40). -/
structure SurplusRecommendation where
  type : String
  message : String
deriving DecidableEq

/-- The `totalSpent` sum of the surplus-mode recommender (recommendations.js
lines 23-25): total amount of the expense-type transactions. -/
def totalSpent (ts : List Transaction) : ℚ :=
  ((ts.filter fun t => decide (t.type = "expense")).map Transaction.amount).sum

/-- The surplus-mode `generateRecommendations` (recommendations.js lines
22-41): compare one aggregate monthly budget against total expenses; a
positive surplus yields the savings-split message, otherwise a warning naming
`findTopExpenseCategory`'s pick (whose `TypeError` on an expense-free list
propagates, modelled `none`). -/
def generateRecommendations (ts : List Transaction) (monthlyBudget : ℚ) :
    Option SurplusRecommendation :=
  let surplus := monthlyBudget - totalSpent ts
  if 0 < surplus then
    some ⟨"positive",
      "You have a surplus of $" ++ jsNumToString surplus ++
        ". Recommend: 70% to savings, 30% to emergency fund."⟩
  else
    match findTopExpenseCategory ts with
    | none => none
    | some topExpenseCategory =>
      some ⟨"warning",
        "Over budget by $" ++ jsNumToString |surplus| ++
          ". Consider reducing spending in " ++ topExpenseCategory ++ "."⟩

end Recs

/-! ## Association-list lemmas -/

theorem akeys_nil {α : Type} : akeys ([] : List (String × α)) = [] := rfl

theorem akeys_cons {α : Type} (k : String) (v : α) (rest : List (String × α)) :
    akeys ((k, v) :: rest) = k :: akeys rest := rfl

theorem alookup_append {α : Type} (k : String) (m₁ m₂ : List (String × α)) :
    alookup k (m₁ ++ m₂) = (alookup k m₁).or (alookup k m₂) := by
  induction m₁ with
  | nil => simp [alookup]
  | cons p rest ih =>
    obtain ⟨k', v⟩ := p
    by_cases h : k' = k <;> simp [alookup, h, ih]

theorem alookup_aupdate {α : Type} (j k : String) (v : α) (m : List (String × α)) :
    alookup j (aupdate k v m) =
      if j = k then (alookup k m).map (fun _ => v) else alookup j m := by
  induction m with
  | nil => by_cases h : j = k <;> simp [alookup, aupdate, h]
  | cons p rest ih =>
    obtain ⟨k', v'⟩ := p
    simp only [aupdate]
    by_cases hk : k' = k
    · rw [if_pos hk]
      by_cases hj : j = k
      · have hkj : k' = j := hk.trans hj.symm
        simp [alookup, hkj, hj, hk]
      · have hkj : ¬k' = j := fun h => hj (h.symm.trans hk)
        have hjk : ¬k = j := fun h => hj h.symm
        simp [alookup, hkj, hj, hk, hjk]
    · rw [if_neg hk]
      by_cases hj : k' = j
      · have hjk : ¬j = k := fun h => hk (hj.trans h)
        simp [alookup, hj, hjk, hk]
      · simp [alookup, hj, hk, ih]

theorem akeys_aupdate {α : Type} (k : String) (v : α) (m : List (String × α)) :
    akeys (aupdate k v m) = akeys m := by
  induction m with
  | nil => rfl
  | cons p rest ih =>
    obtain ⟨k', v'⟩ := p
    by_cases h : k' = k <;> simp [aupdate, h, akeys_cons, ih]

theorem alookup_isSome {α : Type} (k : String) (m : List (String × α)) :
    (alookup k m).isSome = true ↔ k ∈ akeys m := by
  induction m with
  | nil => simp [alookup, akeys_nil]
  | cons p rest ih =>
    obtain ⟨k', v⟩ := p
    rw [akeys_cons]
    by_cases h : k' = k
    · simp [alookup, h]
    · have h2 : ¬k = k' := fun hh => h hh.symm
      simp [alookup, h, h2, ih]

theorem alookup_eq_none {α : Type} (k : String) (m : List (String × α)) :
    alookup k m = none ↔ k ∉ akeys m := by
  rw [← alookup_isSome]
  cases alookup k m <;> simp

/-! ## Aggregator (`getMonthlyData`) lemmas -/

theorem monthExpenseSum_nil (k : String) : ServerJs.monthExpenseSum k [] = 0 := rfl

theorem monthNonexpSum_nil (k : String) : ServerJs.monthNonexpSum k [] = 0 := rfl

theorem monthExpenseSum_cons (k : String) (t : Transaction) (ts : List Transaction) :
    ServerJs.monthExpenseSum k (t :: ts) =
      (if monthKey t.date = k ∧ t.type = "expense" then t.amount else 0) +
        ServerJs.monthExpenseSum k ts := by
  by_cases h : monthKey t.date = k ∧ t.type = "expense" <;>
    simp [ServerJs.monthExpenseSum, List.filter_cons, h]

theorem monthNonexpSum_cons (k : String) (t : Transaction) (ts : List Transaction) :
    ServerJs.monthNonexpSum k (t :: ts) =
      (if monthKey t.date = k ∧ ¬t.type = "expense" then t.amount else 0) +
        ServerJs.monthNonexpSum k ts := by
  by_cases h : monthKey t.date = k ∧ ¬t.type = "expense" <;>
    simp [ServerJs.monthNonexpSum, List.filter_cons, h]

theorem monthTotalSum_cons (k : String) (t : Transaction) (ts : List Transaction) :
    ServerJs.monthTotalSum k (t :: ts) =
      (if monthKey t.date = k then t.amount else 0) + ServerJs.monthTotalSum k ts := by
  by_cases h : monthKey t.date = k <;>
    simp [ServerJs.monthTotalSum, List.filter_cons, h]

theorem monthTotalSum_split (k : String) (ts : List Transaction) :
    ServerJs.monthTotalSum k ts =
      ServerJs.monthExpenseSum k ts + ServerJs.monthNonexpSum k ts := by
  induction ts with
  | nil => simp [monthExpenseSum_nil, monthNonexpSum_nil, ServerJs.monthTotalSum]
  | cons t ts ih =>
    rw [monthTotalSum_cons, monthExpenseSum_cons, monthNonexpSum_cons, ih]
    by_cases h1 : monthKey t.date = k
    · by_cases h2 : t.type = "expense" <;> simp [h1, h2] <;> ring
    · simp [h1]

theorem monthNonexpSum_eq_income (k : String) (ts : List Transaction)
    (hty : ∀ t ∈ ts, t.type = "income" ∨ t.type = "expense") :
    ServerJs.monthNonexpSum k ts = ServerJs.monthIncomeSum k ts := by
  unfold ServerJs.monthNonexpSum ServerJs.monthIncomeSum
  have : (ts.filter fun t => decide (monthKey t.date = k ∧ ¬t.type = "expense")) =
      ts.filter fun t => decide (monthKey t.date = k ∧ t.type = "income") := by
    apply List.filter_congr
    intro t ht
    rcases hty t ht with h | h <;> simp [h]
  rw [this]

theorem alookup_addTx (acc : List (String × Bucket)) (t : Transaction) (k : String) :
    alookup k (ServerJs.addTx acc t) =
      if monthKey t.date = k then
        some (if t.type = "expense"
          then ⟨((alookup k acc).getD ⟨0, 0⟩).expenses + t.amount,
                ((alookup k acc).getD ⟨0, 0⟩).income⟩
          else ⟨((alookup k acc).getD ⟨0, 0⟩).expenses,
                ((alookup k acc).getD ⟨0, 0⟩).income + t.amount⟩)
      else alookup k acc := by
  unfold ServerJs.addTx
  by_cases hk : monthKey t.date = k
  · rw [hk]
    cases hm : alookup k acc with
    | some b =>
      by_cases he : t.type = "expense" <;> simp [he, alookup_aupdate, hm]
    | none =>
      by_cases he : t.type = "expense" <;> simp [he, alookup_append, hm, alookup]
  · have hk2 : ¬k = monthKey t.date := fun h => hk h.symm
    cases hm : alookup (monthKey t.date) acc with
    | some b =>
      by_cases he : t.type = "expense" <;>
        simp [he, alookup_aupdate, hk, hk2, hm]
    | none =>
      by_cases he : t.type = "expense" <;>
        simp [he, alookup_append, hk, hk2, hm, alookup]

theorem alookup_foldl_addTx (ts : List Transaction) :
    ∀ (acc : List (String × Bucket)) (k : String),
      alookup k (ts.foldl ServerJs.addTx acc) =
        match alookup k acc with
        | some b => some ⟨b.expenses + ServerJs.monthExpenseSum k ts,
            b.income + ServerJs.monthNonexpSum k ts⟩
        | none =>
          if ts.any (fun t => decide (monthKey t.date = k)) then
            some ⟨ServerJs.monthExpenseSum k ts, ServerJs.monthNonexpSum k ts⟩
          else none := by
  induction ts with
  | nil =>
    intro acc k
    cases h : alookup k acc <;>
      simp [h, monthExpenseSum_nil, monthNonexpSum_nil]
  | cons t ts ih =>
    intro acc k
    rw [List.foldl_cons, ih (ServerJs.addTx acc t) k, alookup_addTx]
    by_cases hk : monthKey t.date = k
    · by_cases he : t.type = "expense" <;>
        cases h : alookup k acc <;>
          simp [hk, he, h, monthExpenseSum_cons, monthNonexpSum_cons, Bucket.mk.injEq,
            add_assoc]
    · cases h : alookup k acc <;>
        simp [hk, h, monthExpenseSum_cons, monthNonexpSum_cons]

theorem akeys_addTx (acc : List (String × Bucket)) (t : Transaction) :
    akeys (ServerJs.addTx acc t) =
      if monthKey t.date ∈ akeys acc then akeys acc
      else akeys acc ++ [monthKey t.date] := by
  unfold ServerJs.addTx
  cases hm : alookup (monthKey t.date) acc with
  | some b =>
    have hmem : monthKey t.date ∈ akeys acc :=
      (alookup_isSome _ _).1 (by simp [hm])
    by_cases he : t.type = "expense" <;> simp [he, hm, akeys_aupdate, hmem]
  | none =>
    have hmem : monthKey t.date ∉ akeys acc := (alookup_eq_none _ _).1 hm
    have hmem2 : monthKey t.date ∉ List.map Prod.fst acc := by simpa [akeys] using hmem
    by_cases he : t.type = "expense" <;> simp [he, hm, akeys, hmem2]

theorem akeys_foldl_addTx_nodup (ts : List Transaction) :
    ∀ acc : List (String × Bucket),
      (akeys acc).Nodup → (akeys (ts.foldl ServerJs.addTx acc)).Nodup := by
  induction ts with
  | nil => intro acc h; simpa using h
  | cons t ts ih =>
    intro acc h
    rw [List.foldl_cons]
    apply ih
    rw [akeys_addTx]
    by_cases hm : monthKey t.date ∈ akeys acc
    · simpa [hm] using h
    · simp [hm, List.nodup_append, h]

theorem akeys_foldl_addTx_mem (ts : List Transaction) :
    ∀ (acc : List (String × Bucket)) (j : String),
      j ∈ akeys (ts.foldl ServerJs.addTx acc) ↔
        j ∈ akeys acc ∨ ∃ t ∈ ts, monthKey t.date = j := by
  induction ts with
  | nil => intro acc j; simp
  | cons t ts ih =>
    intro acc j
    rw [List.foldl_cons, ih (ServerJs.addTx acc t) j, akeys_addTx]
    by_cases hm : monthKey t.date ∈ akeys acc
    · by_cases hj : monthKey t.date = j
      · rw [← hj]
        simp [hm]
      · simp [hm, hj]
    · simp [hm, List.mem_append]
      by_cases hj : monthKey t.date = j
      · rw [← hj]
        simp
      · have hj2 : ¬j = monthKey t.date := fun h => hj h.symm
        simp [hj, hj2]

theorem alookup_getMonthlyData (ts : List Transaction) (k : String) :
    alookup k (ServerJs.getMonthlyData ts) =
      if ts.any (fun t => decide (monthKey t.date = k)) then
        some ⟨ServerJs.monthExpenseSum k ts, ServerJs.monthNonexpSum k ts⟩
      else none := by
  have h := alookup_foldl_addTx ts [] k
  simpa [ServerJs.getMonthlyData, alookup] using h

/-- **C1**: for transactions with valid dates and `income`/`expense` types, the
aggregator has a bucket exactly for the months in which a transaction falls;
each bucket's `expenses` is the sum of that month's expense amounts and its
`income` the sum of the remaining (income) amounts, so `expenses + income` is
the sum of all amounts of the month; the number of buckets is the number of
distinct months present. -/
theorem aggregator_month_buckets (ts : List Transaction)
    (hty : ∀ t ∈ ts, t.type = "income" ∨ t.type = "expense")
    (_hdate : ∀ t ∈ ts, ValidDate t.date) :
    (∀ k : String,
      (∃ b, alookup k (ServerJs.getMonthlyData ts) = some b) ↔
        ∃ t ∈ ts, monthKey t.date = k) ∧
    (∀ (k : String) (b : Bucket), alookup k (ServerJs.getMonthlyData ts) = some b →
      b.expenses = ServerJs.monthExpenseSum k ts ∧
      b.income = ServerJs.monthIncomeSum k ts ∧
      b.expenses + b.income = ServerJs.monthTotalSum k ts) ∧
    (ServerJs.getMonthlyData ts).length =
      (ts.map fun t => monthKey t.date).dedup.length := by
  refine ⟨?_, ?_, ?_⟩
  · intro k
    rw [alookup_getMonthlyData]
    by_cases h : ts.any (fun t => decide (monthKey t.date = k)) = true
    · simp only [if_pos h]
      constructor
      · intro _
        simpa using h
      · intro _
        exact ⟨_, rfl⟩
    · simp only [if_neg h]
      constructor
      · rintro ⟨b, hb⟩
        exact absurd hb (by simp)
      · intro hex
        exact absurd (by simpa using hex) h
  · intro k b hb
    rw [alookup_getMonthlyData] at hb
    by_cases h : ts.any (fun t => decide (monthKey t.date = k)) = true
    · rw [if_pos h] at hb
      obtain rfl :
          (⟨ServerJs.monthExpenseSum k ts, ServerJs.monthNonexpSum k ts⟩ : Bucket) = b :=
        Option.some.inj hb
      refine ⟨rfl, monthNonexpSum_eq_income k ts hty, ?_⟩
      exact (monthTotalSum_split k ts).symm
    · rw [if_neg h] at hb
      exact absurd hb (by simp)
  · have hnodup : (akeys (ServerJs.getMonthlyData ts)).Nodup :=
      akeys_foldl_addTx_nodup ts [] (by simp [akeys])
    have hmem : ∀ j, j ∈ akeys (ServerJs.getMonthlyData ts) ↔
        j ∈ ts.map fun t => monthKey t.date := by
      intro j
      have h := akeys_foldl_addTx_mem ts [] j
      simp only [ServerJs.getMonthlyData]
      rw [h]
      simp [akeys, List.mem_map]
    have hfin : (akeys (ServerJs.getMonthlyData ts)).toFinset =
        (ts.map fun t => monthKey t.date).toFinset := by
      ext j
      simp only [List.mem_toFinset]
      exact hmem j
    calc (ServerJs.getMonthlyData ts).length
        = (akeys (ServerJs.getMonthlyData ts)).length := by simp [akeys]
      _ = (akeys (ServerJs.getMonthlyData ts)).dedup.length := by
            rw [List.dedup_eq_self.mpr hnodup]
      _ = (akeys (ServerJs.getMonthlyData ts)).toFinset.card :=
            (List.card_toFinset _).symm
      _ = (ts.map fun t => monthKey t.date).toFinset.card := by rw [hfin]
      _ = (ts.map fun t => monthKey t.date).dedup.length := List.card_toFinset _

/-- Witness for C1 at a concrete validated transaction list. -/
theorem aggregator_month_buckets_witness :
    (ServerJs.getMonthlyData
      [⟨"expense", 50, "food", ⟨2024, 1, 15⟩⟩,
       ⟨"income", 70, "salary", ⟨2024, 2, 1⟩⟩]).length =
    (([⟨"expense", 50, "food", ⟨2024, 1, 15⟩⟩,
       ⟨"income", 70, "salary", ⟨2024, 2, 1⟩⟩] : List Transaction).map
        fun t => monthKey t.date).dedup.length :=
  (aggregator_month_buckets
    [⟨"expense", 50, "food", ⟨2024, 1, 15⟩⟩, ⟨"income", 70, "salary", ⟨2024, 2, 1⟩⟩]
    (by decide) (by decide)).2.2

/-! ## Backtester lemmas -/

theorem take_drop_slice3 (l : List String) (i : ℕ) (h3 : 3 ≤ i) (hi : i < l.length) :
    (l.take i).drop (i - 3) = [l.getD (i - 3) "", l.getD (i - 2) "", l.getD (i - 1) ""] := by
  have hv : ∀ j, j < l.length → l[j]? = some (l.getD j "") := fun j hj => by
    rw [List.getD_eq_getElem?_getD, List.getElem?_eq_getElem hj]
    rfl
  apply List.ext_getElem?
  intro n
  rw [List.getElem?_drop, List.getElem?_take]
  match n with
  | 0 =>
    rw [if_pos (by omega : i - 3 + 0 < i), show i - 3 + 0 = i - 3 by omega,
      hv (i - 3) (by omega)]
    rfl
  | 1 =>
    rw [if_pos (by omega : i - 3 + 1 < i), show i - 3 + 1 = i - 2 by omega,
      hv (i - 2) (by omega)]
    rfl
  | 2 =>
    rw [if_pos (by omega : i - 3 + 2 < i), show i - 3 + 2 = i - 1 by omega,
      hv (i - 1) (by omega)]
    rfl
  | n + 3 =>
    rw [if_neg (by omega : ¬(i - 3 + (n + 3) < i))]
    rfl

/-- **C3**: for every aggregated history, the backtest emits one record per
index `i` from 3 to `k - 1` over the ascending sorted month keys, with
`predicted` the mean of the three preceding months' expenses, `actual` the
expenses at `i`, and `accuracy = clamp(0, 100, (1 - |p - a| / a) * 100)`
(defined `0` when the actual is `0`), each rounded to two decimals. -/
theorem backtester_records (md : List (String × Bucket)) (i : ℕ)
    (h3 : 3 ≤ i) (hi : i < (ServerJs.monthsSorted md).length) :
    (ServerJs.backtestRecords md).length = (ServerJs.monthsSorted md).length - 3 ∧
    (ServerJs.backtestRecords md)[i - 3]? =
      some ⟨(ServerJs.monthsSorted md).getD i "",
        jsRound2 ((ServerJs.expensesOf md ((ServerJs.monthsSorted md).getD (i - 3) "") +
            ServerJs.expensesOf md ((ServerJs.monthsSorted md).getD (i - 2) "") +
            ServerJs.expensesOf md ((ServerJs.monthsSorted md).getD (i - 1) "")) / 3),
        jsRound2 (ServerJs.expensesOf md ((ServerJs.monthsSorted md).getD i "")),
        jsRound2
          (if ServerJs.expensesOf md ((ServerJs.monthsSorted md).getD i "") = 0 then 0
           else min 100 (max 0 ((1 -
             |(ServerJs.expensesOf md ((ServerJs.monthsSorted md).getD (i - 3) "") +
               ServerJs.expensesOf md ((ServerJs.monthsSorted md).getD (i - 2) "") +
               ServerJs.expensesOf md ((ServerJs.monthsSorted md).getD (i - 1) "")) / 3 -
              ServerJs.expensesOf md ((ServerJs.monthsSorted md).getD i "")| /
              ServerJs.expensesOf md ((ServerJs.monthsSorted md).getD i "")) * 100)))⟩ := by
  constructor
  · simp [ServerJs.backtestRecords]
  · unfold ServerJs.backtestRecords
    rw [List.getElem?_map,
      List.getElem?_range' 3 1 (show i - 3 < (ServerJs.monthsSorted md).length - 3 by omega),
      show 3 + 1 * (i - 3) = i by omega]
    simp only [Option.map_some']
    rw [take_drop_slice3 _ i h3 hi]
    simp [ServerJs.calculateAccuracy, add_assoc]

/-- Witness for C3: four months of expenses 100, 200, 300, 240; the fourth
month's record has predicted 200, actual 240, accuracy 83.33. -/
theorem backtester_records_witness :
    (ServerJs.backtestRecords
      [("2024-01", ⟨100, 0⟩), ("2024-02", ⟨200, 0⟩),
       ("2024-03", ⟨300, 0⟩), ("2024-04", ⟨240, 0⟩)])[0]? =
      some ⟨"2024-04", 200, 240, 83.33⟩ := by
  have hlen : 3 < (ServerJs.monthsSorted
      [("2024-01", ⟨100, 0⟩), ("2024-02", ⟨200, 0⟩),
       ("2024-03", ⟨300, 0⟩), ("2024-04", (⟨240, 0⟩ : Bucket))]).length := by
    simp only [ServerJs.monthsSorted, List.length_insertionSort, akeys,
      List.length_map, List.length_cons, List.length_nil]
    omega
  have h := (backtester_records
    [("2024-01", ⟨100, 0⟩), ("2024-02", ⟨200, 0⟩),
     ("2024-03", ⟨300, 0⟩), ("2024-04", ⟨240, 0⟩)] 3 (by norm_num) hlen).2
  have hsort : ServerJs.monthsSorted
      [("2024-01", ⟨100, 0⟩), ("2024-02", ⟨200, 0⟩),
       ("2024-03", ⟨300, 0⟩), ("2024-04", (⟨240, 0⟩ : Bucket))] =
      ["2024-01", "2024-02", "2024-03", "2024-04"] := by
    simp [ServerJs.monthsSorted, akeys, List.insertionSort, List.orderedInsert]
    decide
  rw [h, hsort]
  have hl1 : ServerJs.expensesOf
      [("2024-01", ⟨100, 0⟩), ("2024-02", ⟨200, 0⟩),
       ("2024-03", ⟨300, 0⟩), ("2024-04", (⟨240, 0⟩ : Bucket))] "2024-01" = 100 := by
    simp [ServerJs.expensesOf, alookup]
  have hl2 : ServerJs.expensesOf
      [("2024-01", ⟨100, 0⟩), ("2024-02", ⟨200, 0⟩),
       ("2024-03", ⟨300, 0⟩), ("2024-04", (⟨240, 0⟩ : Bucket))] "2024-02" = 200 := by
    simp [ServerJs.expensesOf, alookup]
  have hl3 : ServerJs.expensesOf
      [("2024-01", ⟨100, 0⟩), ("2024-02", ⟨200, 0⟩),
       ("2024-03", ⟨300, 0⟩), ("2024-04", (⟨240, 0⟩ : Bucket))] "2024-03" = 300 := by
    simp [ServerJs.expensesOf, alookup]
  have hl4 : ServerJs.expensesOf
      [("2024-01", ⟨100, 0⟩), ("2024-02", ⟨200, 0⟩),
       ("2024-03", ⟨300, 0⟩), ("2024-04", (⟨240, 0⟩ : Bucket))] "2024-04" = 240 := by
    simp [ServerJs.expensesOf, alookup]
  norm_num [List.getD_cons_zero, List.getD_cons_succ, hl1, hl2, hl3, hl4,
    jsRound2, jsRound, min_def, max_def]

/-! ## Moving-average predictor (C2) -/

/-- **C2** counterexample: three expense transactions inside one single
calendar month span only 1 distinct month (fewer than 3), yet
`predictNextMonthSpending` does not return `null`: the guard on server.js
line 94 counts transactions, not months, and the single bucket's 600 of
expenses divided by 3 yields a prediction of 200 — not the mean of three
month buckets, which do not exist. -/
theorem predict_null_counterexample :
    (([⟨"expense", 100, "a", ⟨2024, 1, 3⟩⟩, ⟨"expense", 200, "b", ⟨2024, 1, 14⟩⟩,
        ⟨"expense", 300, "c", ⟨2024, 1, 25⟩⟩] : List Transaction).map
        fun t => monthKey t.date).dedup.length = 1 ∧
    ServerJs.predictNextMonthSpending
        [⟨"expense", 100, "a", ⟨2024, 1, 3⟩⟩, ⟨"expense", 200, "b", ⟨2024, 1, 14⟩⟩,
         ⟨"expense", 300, "c", ⟨2024, 1, 25⟩⟩] ≠ none ∧
    (ServerJs.predictNextMonthSpending
        [⟨"expense", 100, "a", ⟨2024, 1, 3⟩⟩, ⟨"expense", 200, "b", ⟨2024, 1, 14⟩⟩,
         ⟨"expense", 300, "c", ⟨2024, 1, 25⟩⟩]).map
      ServerJs.PredictionResult.prediction = some 200 := by
  refine ⟨by decide, ?_, ?_⟩
  · simp [ServerJs.predictNextMonthSpending]
  · norm_num [ServerJs.predictNextMonthSpending, ServerJs.recentExpenses,
      ServerJs.getMonthlyData, ServerJs.addTx, ServerJs.monthsSorted,
      ServerJs.expensesOf, alookup, aupdate, akeys, List.insertionSort,
      List.orderedInsert, monthKey]

/-- **C2 (amended)**: `predictNextMonthSpending` returns `null` exactly when
the transaction list holds fewer than 3 transactions (not: spans fewer than 3
distinct months); otherwise the prediction is the sum of the expenses of the
up-to-3 last months in sorted key order divided by 3 — the claimed 3-month
mean whenever at least 3 months exist — and on exactly the months Jan: 100,
Feb: 200, Mar: 300 of expenses the prediction is 200. -/
theorem predict_gate_amended :
    (∀ ts : List Transaction,
      (ServerJs.predictNextMonthSpending ts = none ↔ ts.length < 3) ∧
      (ServerJs.recentExpenses ts).length =
        min 3 (ServerJs.getMonthlyData ts).length ∧
      (3 ≤ ts.length → ∃ c, ServerJs.predictNextMonthSpending ts =
        some ⟨(ServerJs.recentExpenses ts).sum / 3, c⟩)) ∧
    (ServerJs.predictNextMonthSpending
        [⟨"expense", 100, "a", ⟨2024, 1, 10⟩⟩, ⟨"expense", 200, "b", ⟨2024, 2, 10⟩⟩,
         ⟨"expense", 300, "c", ⟨2024, 3, 10⟩⟩]).map
      ServerJs.PredictionResult.prediction = some 200 := by
  constructor
  · intro ts
    refine ⟨?_, ?_, ?_⟩
    · by_cases h : ts.length < 3 <;> simp [ServerJs.predictNextMonthSpending, h]
    · simp only [ServerJs.recentExpenses, ServerJs.monthsSorted, akeys,
        List.length_map, List.length_drop, List.length_insertionSort]
      omega
    · intro h
      refine ⟨ServerJs.calculateConfidence (ServerJs.recentExpenses ts), ?_⟩
      simp [ServerJs.predictNextMonthSpending, Nat.not_lt.2 h]
  · have hk1 : monthKey ⟨2024, 1, 10⟩ = "2024-01" := by decide
    have hk2 : monthKey ⟨2024, 2, 10⟩ = "2024-02" := by decide
    have hk3 : monthKey ⟨2024, 3, 10⟩ = "2024-03" := by decide
    have hmd : ServerJs.getMonthlyData
        [⟨"expense", 100, "a", ⟨2024, 1, 10⟩⟩, ⟨"expense", 200, "b", ⟨2024, 2, 10⟩⟩,
         ⟨"expense", 300, "c", ⟨2024, 3, 10⟩⟩] =
        [("2024-01", ⟨100, 0⟩), ("2024-02", ⟨200, 0⟩), ("2024-03", ⟨300, 0⟩)] := by
      simp [ServerJs.getMonthlyData, ServerJs.addTx, alookup, aupdate, hk1, hk2, hk3]
    have hsort : ServerJs.monthsSorted
        [("2024-01", ⟨100, 0⟩), ("2024-02", ⟨200, 0⟩), ("2024-03", (⟨300, 0⟩ : Bucket))] =
        ["2024-01", "2024-02", "2024-03"] := by
      simp [ServerJs.monthsSorted, akeys, List.insertionSort, List.orderedInsert]
      decide
    have hre : ServerJs.recentExpenses
        [⟨"expense", 100, "a", ⟨2024, 1, 10⟩⟩, ⟨"expense", 200, "b", ⟨2024, 2, 10⟩⟩,
         ⟨"expense", 300, "c", ⟨2024, 3, 10⟩⟩] = [100, 200, 300] := by
      simp [ServerJs.recentExpenses, hmd, hsort, ServerJs.expensesOf, alookup]
    norm_num [ServerJs.predictNextMonthSpending, hre]

/-- Witness for the amended C2 at a concrete list of three transactions. -/
theorem predict_gate_amended_witness :
    ∃ c, ServerJs.predictNextMonthSpending
        [⟨"expense", 100, "a", ⟨2024, 1, 3⟩⟩, ⟨"expense", 200, "b", ⟨2024, 1, 14⟩⟩,
         ⟨"expense", 300, "c", ⟨2024, 1, 25⟩⟩] =
      some ⟨(ServerJs.recentExpenses
        [⟨"expense", 100, "a", ⟨2024, 1, 3⟩⟩, ⟨"expense", 200, "b", ⟨2024, 1, 14⟩⟩,
         ⟨"expense", 300, "c", ⟨2024, 1, 25⟩⟩]).sum / 3, c⟩ :=
  (predict_gate_amended.1
    [⟨"expense", 100, "a", ⟨2024, 1, 3⟩⟩, ⟨"expense", 200, "b", ⟨2024, 1, 14⟩⟩,
     ⟨"expense", 300, "c", ⟨2024, 1, 25⟩⟩]).2.2 (by norm_num)

/-! ## Confidence (C9) -/

/-- **C9** counterexample: a 3-value window of all-zero expenses has mean 0
and variance 0, so the source computes `Math.sqrt(0) / 0 = NaN` and
`calculateConfidence` returns `NaN` (modelled `none`) — not the claimed 0, and
not a number in `[0, 100]`. -/
theorem confidence_counterexample :
    ServerJs.calculateConfidence [0, 0, 0] = none ∧
    ServerJs.calculateConfidence [0, 0, 0] ≠ some 0 := by
  have h : ServerJs.calculateConfidence [0, 0, 0] = none := by
    norm_num [ServerJs.calculateConfidence]
  exact ⟨h, by rw [h]; simp⟩

/-- **C9 (amended)**: on a 3-value window whose sum (hence mean) is non-zero,
the confidence is `max 0 (min 100 ((1 - stdev/mean) * 100))` — the
coefficient-of-variation formula — and always lies in `[0, 100]`; when the
window is all zeros (mean 0 and variance 0) the function returns `NaN`
(`none`), not 0. -/
theorem confidence_amended (data : List ℚ) (hlen : data.length = 3)
    (hsum : data.sum ≠ 0) :
    ∃ c : ℝ, ServerJs.calculateConfidence data = some c ∧
      c = max 0 (min 100 ((1 - Real.sqrt
          (((data.map (fun v => (v - data.sum / data.length) ^ 2)).sum /
            data.length : ℚ)) /
          ((data.sum / data.length : ℚ) : ℝ)) * 100)) ∧
      0 ≤ c ∧ c ≤ 100 := by
  have h2 : ¬data.length < 2 := by omega
  have hmean : (data.sum / (data.length : ℚ)) ≠ 0 := by
    rw [hlen]
    push_cast
    exact div_ne_zero hsum (by norm_num)
  refine ⟨_, ?_, rfl, le_max_left _ _, max_le (by norm_num) (min_le_left _ _)⟩
  simp only [ServerJs.calculateConfidence, if_neg h2, if_neg hmean]

/-- Witness for the amended C9 at the window `[100, 200, 300]`. -/
theorem confidence_amended_witness :
    ∃ c : ℝ, ServerJs.calculateConfidence [100, 200, 300] = some c ∧
      c = max 0 (min 100 ((1 - Real.sqrt
          (((([100, 200, 300] : List ℚ).map
              (fun v => (v - ([100, 200, 300] : List ℚ).sum /
                (([100, 200, 300] : List ℚ).length : ℚ)) ^ 2)).sum /
            (([100, 200, 300] : List ℚ).length : ℚ) : ℚ)) /
          ((([100, 200, 300] : List ℚ).sum /
            (([100, 200, 300] : List ℚ).length : ℚ) : ℚ) : ℝ)) * 100)) ∧
      0 ≤ c ∧ c ≤ 100 :=
  confidence_amended [100, 200, 300] (by norm_num) (by norm_num)

/-! ## Linear-regression predictor (C7, C8) -/

/-- First ordinary-least-squares normal equation, as a field identity. -/
theorem ols_normal_eq1 (n X Y XY XX : ℚ) (hn : n ≠ 0) (_hd : n * XX - X * X ≠ 0) :
    ((n * XY - X * Y) / (n * XX - X * X)) * XX +
      ((Y - ((n * XY - X * Y) / (n * XX - X * X)) * X) / n) * X = XY := by
  field_simp
  ring

/-- Second ordinary-least-squares normal equation, as a field identity. -/
theorem ols_normal_eq2 (n X Y XY XX : ℚ) (hn : n ≠ 0) (_hd : n * XX - X * X ≠ 0) :
    ((n * XY - X * Y) / (n * XX - X * X)) * X +
      ((Y - ((n * XY - X * Y) / (n * XX - X * X)) * X) / n) * n = Y := by
  rw [div_mul_cancel₀ _ hn]
  ring

/-- **C7** counterexample: on the amounts `[10, 20, 30]` the source's
`slope * (n + 1) + intercept` (mlModel.js line 16) evaluates the fitted line
at `x = n + 1 = 4`, returning 50 — not 40, the value at `x = n = 3` that the
claim states. -/
theorem regression_prediction_counterexample :
    MlModel.calculateSpendingPrediction [10, 20, 30] = some 50 ∧ (50 : ℚ) ≠ 40 := by
  have hrange : List.range 3 = [0, 1, 2] := by decide
  constructor
  · norm_num [MlModel.calculateSpendingPrediction, MlModel.regDenom, MlModel.regN,
      MlModel.regSumX, MlModel.regSumY, MlModel.regSumXY, MlModel.regSumXX,
      hrange, jsRound2, jsRound, max_def]
  · norm_num

/-- **C7 (amended)**: when the denominator is non-zero the function fits the
ordinary-least-squares line — its slope and intercept satisfy the two normal
equations — but predicts at `x = n + 1` (not `x = n`), clamps at 0 after
rounding to two decimals; on `[10, 20, 30]` the returned prediction is 50. -/
theorem regression_amended (ys : List ℚ) (hden : MlModel.regDenom ys ≠ 0) :
    ∃ slope intercept : ℚ,
      slope * MlModel.regSumXX ys + intercept * MlModel.regSumX ys =
        MlModel.regSumXY ys ∧
      slope * MlModel.regSumX ys + intercept * MlModel.regN ys =
        MlModel.regSumY ys ∧
      MlModel.calculateSpendingPrediction ys =
        some (max 0 (jsRound2 (slope * (MlModel.regN ys + 1) + intercept))) := by
  have hd : MlModel.regDenom ys =
      MlModel.regN ys * MlModel.regSumXX ys -
        MlModel.regSumX ys * MlModel.regSumX ys := rfl
  have hn : MlModel.regN ys ≠ 0 := by
    intro h0
    apply hden
    have hl : ys.length = 0 := by
      simpa only [MlModel.regN, Nat.cast_eq_zero] using h0
    have hnil : ys = [] := List.length_eq_zero.mp hl
    subst hnil
    norm_num [MlModel.regDenom, MlModel.regN, MlModel.regSumX, MlModel.regSumXX]
  refine ⟨(MlModel.regN ys * MlModel.regSumXY ys -
      MlModel.regSumX ys * MlModel.regSumY ys) / MlModel.regDenom ys,
    (MlModel.regSumY ys - ((MlModel.regN ys * MlModel.regSumXY ys -
      MlModel.regSumX ys * MlModel.regSumY ys) / MlModel.regDenom ys) *
      MlModel.regSumX ys) / MlModel.regN ys, ?_, ?_, ?_⟩
  · rw [hd]
    exact ols_normal_eq1 _ _ _ _ _ hn (hd ▸ hden)
  · rw [hd]
    exact ols_normal_eq2 _ _ _ _ _ hn (hd ▸ hden)
  · simp only [MlModel.calculateSpendingPrediction, if_neg hden]

/-- Witness for the amended C7 at `[10, 20, 30]`. -/
theorem regression_amended_witness :
    ∃ slope intercept : ℚ,
      slope * MlModel.regSumXX [10, 20, 30] + intercept * MlModel.regSumX [10, 20, 30] =
        MlModel.regSumXY [10, 20, 30] ∧
      slope * MlModel.regSumX [10, 20, 30] + intercept * MlModel.regN [10, 20, 30] =
        MlModel.regSumY [10, 20, 30] ∧
      MlModel.calculateSpendingPrediction [10, 20, 30] =
        some (max 0 (jsRound2 (slope * (MlModel.regN [10, 20, 30] + 1) + intercept))) :=
  regression_amended [10, 20, 30] (by
    have hrange : List.range 3 = [0, 1, 2] := by decide
    norm_num [MlModel.regDenom, MlModel.regN, MlModel.regSumX, MlModel.regSumXX, hrange])

/-- **C8** counterexample: on a single data point the regression denominator
is 0 and the function returns `NaN` (`0/0` propagated through `Math.round` and
`Math.max`, modelled `none`) — not the defined degenerate prediction 0 the
claim states. -/
theorem regression_denominator_counterexample :
    MlModel.calculateSpendingPrediction [10] = none ∧
    MlModel.calculateSpendingPrediction [10] ≠ some 0 := by
  have hrange : List.range 1 = [0] := by decide
  have h : MlModel.regDenom [10] = 0 := by
    norm_num [MlModel.regDenom, MlModel.regN, MlModel.regSumX, MlModel.regSumXX, hrange]
  have h2 : MlModel.calculateSpendingPrediction [10] = none := by
    simp [MlModel.calculateSpendingPrediction, h]
  exact ⟨h2, by rw [h2]; simp⟩

/-- **C8 (amended)**: fewer than 2 data points make the denominator
`n * sumXX - sumX²` zero, and a zero denominator makes
`calculateSpendingPrediction` return `NaN` (modelled `none`) — there is no
guard returning 0. -/
theorem regression_denominator_amended (ys : List ℚ) :
    (ys.length < 2 → MlModel.regDenom ys = 0) ∧
    (MlModel.regDenom ys = 0 → MlModel.calculateSpendingPrediction ys = none) := by
  constructor
  · intro h
    have hrange : List.range 1 = [0] := by decide
    obtain - | ⟨a, - | ⟨b, l⟩⟩ := ys
    · norm_num [MlModel.regDenom, MlModel.regN, MlModel.regSumX, MlModel.regSumXX]
    · norm_num [MlModel.regDenom, MlModel.regN, MlModel.regSumX, MlModel.regSumXX, hrange]
    · simp only [List.length_cons] at h
      omega
  · intro h
    simp [MlModel.calculateSpendingPrediction, h]

/-- Witness for the amended C8 at the single point `[10]`. -/
theorem regression_denominator_amended_witness :
    MlModel.regDenom [10] = 0 ∧ MlModel.calculateSpendingPrediction [10] = none := by
  have h1 := (regression_denominator_amended [10]).1 (by norm_num)
  exact ⟨h1, (regression_denominator_amended [10]).2 h1⟩

/-! ## Per-budget recommender and the `months` ReferenceError (C4, C5, C6) -/

/-- **C5** (code bug): the per-budget loop (server.js lines 114-130) computes
exactly the claimed recommendation — a food budget of 100 against 150 of
current-month food expenses yields `Reduce spending in food by $50.00` at
high priority, and the rent budget with no overspend yields nothing — but
`mlUtils.generateRecommendations` reads the undeclared variable `months` on
line 133 and throws `ReferenceError: months is not defined` before returning
the list. -/
theorem budget_recommendation_code_bug :
    ServerJs.generateRecommendations
        [⟨"expense", 150, "food", ⟨2024, 5, 12⟩⟩]
        [⟨"food", 100, "expense"⟩, ⟨"rent", 1000, "expense"⟩] "2024-05" =
      Except.error "ReferenceError: months is not defined" ∧
    ServerJs.budgetRecommendations
        [⟨"expense", 150, "food", ⟨2024, 5, 12⟩⟩]
        [⟨"food", 100, "expense"⟩, ⟨"rent", 1000, "expense"⟩] "2024-05" =
      [⟨"food", "Reduce spending in food by $50.00", "high"⟩] := by
  constructor
  · rfl
  · have hk : monthKey ⟨2024, 5, 12⟩ = "2024-05" := by decide
    have hfix : toFixed2 50 = "50.00" := by
      have h1 : jsRound ((50 : ℚ) * 100) = 5000 := by norm_num [jsRound]
      simp only [toFixed2, h1]
      decide
    norm_num [ServerJs.budgetRecommendations, List.filter_cons, hk, hfix]
    rfl

/-- **C6** (code bug): on aggregated data where the claim's condition holds
(previous month 100 of expenses, current month 200 > 1.1 * 100, so the claim
expects exactly the one medium-priority general recommendation), the code
instead throws `ReferenceError: months is not defined` — line 133 reads a
variable that is not declared anywhere in scope — so no recommendation list
is ever returned. -/
theorem general_recommendation_code_bug :
    ServerJs.generateRecommendations
        [⟨"expense", 100, "a", ⟨2024, 3, 5⟩⟩, ⟨"expense", 200, "b", ⟨2024, 4, 5⟩⟩]
        [] "2024-04" =
      Except.error "ReferenceError: months is not defined" ∧
    (Except.error "ReferenceError: months is not defined" :
        Except String (List ServerJs.Recommendation)) ≠
      Except.ok [⟨"general",
        "Overall spending is higher than last month. Consider reducing expenses.",
        "medium"⟩] :=
  ⟨rfl, by simp⟩

/-- **C4** (code bug): `mlUtils.generateRecommendations` — one of the core
operations the claim covers — raises `ReferenceError: months is not defined`
on every validated input, because line 133 reads an undeclared variable, so
"every core operation returns a defined value and raises no error" fails. -/
theorem core_no_error_code_bug :
    ServerJs.generateRecommendations
        [⟨"expense", 42, "misc", ⟨2024, 1, 5⟩⟩] [] "2024-01" =
      Except.error "ReferenceError: months is not defined" := rfl

/-! ## Surplus-mode recommender (C10) -/

theorem foldl_argmax_split (v : String → ℚ) (l : List String) :
    ∀ a : String,
      ∃ l₁ l₂,
        a :: l = l₁ ++ (l.foldl (fun x y => if v y < v x then x else y) a) :: l₂ ∧
        (∀ k ∈ l₁, v k ≤ v (l.foldl (fun x y => if v y < v x then x else y) a)) ∧
        (∀ k ∈ l₂, v k < v (l.foldl (fun x y => if v y < v x then x else y) a)) := by
  induction l with
  | nil =>
    intro a
    exact ⟨[], [], rfl, by simp, by simp⟩
  | cons b l ih =>
    intro a
    rw [List.foldl_cons]
    by_cases h : v b < v a
    · rw [if_pos h]
      obtain ⟨l₁, l₂, heq, h₁, h₂⟩ := ih a
      set r := List.foldl (fun x y => if v y < v x then x else y) a l with hR
      cases l₁ with
      | nil =>
        simp only [List.nil_append] at heq
        injection heq with ha hl
        refine ⟨[], b :: l₂, ?_, by simp, ?_⟩
        · rw [← ha, hl]
          rfl
        · intro k hk
          rcases List.mem_cons.mp hk with hk | hk
          · rw [hk, ← ha]
            exact h
          · exact h₂ k hk
      | cons a₀ l₁' =>
        simp only [List.cons_append] at heq
        injection heq with ha hl
        have har : v a ≤ v r := by
          rw [ha]
          exact h₁ a₀ (List.mem_cons_self a₀ l₁')
        refine ⟨a :: b :: l₁', l₂, ?_, ?_, h₂⟩
        · rw [hl]
          rfl
        · intro k hk
          rcases List.mem_cons.mp hk with hk | hk
          · rw [hk]
            exact har
          · rcases List.mem_cons.mp hk with hk | hk
            · rw [hk]
              exact le_trans (le_of_lt h) har
            · exact h₁ k (List.mem_cons_of_mem a₀ hk)
    · rw [if_neg h]
      obtain ⟨l₁, l₂, heq, h₁, h₂⟩ := ih b
      set r := List.foldl (fun x y => if v y < v x then x else y) b l with hR
      have hbr : v b ≤ v r := by
        cases l₁ with
        | nil =>
          simp only [List.nil_append] at heq
          injection heq with hb _
          rw [hb]
        | cons b₀ l₁' =>
          simp only [List.cons_append] at heq
          injection heq with hb _
          rw [hb]
          exact h₁ b₀ (List.mem_cons_self b₀ l₁')
      refine ⟨a :: l₁, l₂, ?_, ?_, h₂⟩
      · rw [heq]
        rfl
      · intro k hk
        rcases List.mem_cons.mp hk with hk | hk
        · rw [hk]
          exact le_trans (not_lt.mp h) hbr
        · exact h₁ k hk

/-- Characterisation of `findTopExpenseCategory` on a non-empty totals map:
it returns some key `top`, and in iteration order every key before `top` has
total at most `top`'s and every key after it a strictly smaller total — on
ties the later key wins. -/
theorem findTopExpenseCategory_spec (ts : List Transaction)
    (h : Recs.categoryTotals ts ≠ []) :
    ∃ top l₁ l₂,
      akeys (Recs.categoryTotals ts) = l₁ ++ top :: l₂ ∧
      (∀ k ∈ l₁, (alookup k (Recs.categoryTotals ts)).getD 0 ≤
        (alookup top (Recs.categoryTotals ts)).getD 0) ∧
      (∀ k ∈ l₂, (alookup k (Recs.categoryTotals ts)).getD 0 <
        (alookup top (Recs.categoryTotals ts)).getD 0) ∧
      Recs.findTopExpenseCategory ts = some top := by
  cases htot : akeys (Recs.categoryTotals ts) with
  | nil =>
    exact absurd (by simpa [akeys, List.map_eq_nil_iff] using htot) h
  | cons k0 rest =>
    obtain ⟨l₁, l₂, heq, h₁, h₂⟩ :=
      foldl_argmax_split (fun k => (alookup k (Recs.categoryTotals ts)).getD 0) rest k0
    refine ⟨rest.foldl (fun x y =>
        if (alookup y (Recs.categoryTotals ts)).getD 0 <
          (alookup x (Recs.categoryTotals ts)).getD 0 then x else y) k0,
      l₁, l₂, ?_, h₁, h₂, ?_⟩
    · exact heq
    · simp only [Recs.findTopExpenseCategory, htot]

/-- **C10 (amended)**: the surplus-mode recommender computes
`surplus = monthlyBudget - totalSpent`; a positive surplus yields the single
positive savings-split message, and a non-positive surplus (on a list with at
least one expense) yields a single warning naming the category with the
highest total expense — with ties broken by the *last*-encountered key in
iteration order, not the first — and the overspend `|surplus|`; on budget 500
against 600 of food expenses it warns `Over budget by $100. Consider reducing
spending in food.`. -/
theorem surplus_recommendations_amended :
    (∀ (ts : List Transaction) (monthlyBudget : ℚ),
      (0 < monthlyBudget - Recs.totalSpent ts →
        Recs.generateRecommendations ts monthlyBudget =
          some ⟨"positive",
            "You have a surplus of $" ++
              jsNumToString (monthlyBudget - Recs.totalSpent ts) ++
              ". Recommend: 70% to savings, 30% to emergency fund."⟩) ∧
      (monthlyBudget - Recs.totalSpent ts ≤ 0 → Recs.categoryTotals ts ≠ [] →
        ∃ top l₁ l₂,
          akeys (Recs.categoryTotals ts) = l₁ ++ top :: l₂ ∧
          (∀ k ∈ l₁, (alookup k (Recs.categoryTotals ts)).getD 0 ≤
            (alookup top (Recs.categoryTotals ts)).getD 0) ∧
          (∀ k ∈ l₂, (alookup k (Recs.categoryTotals ts)).getD 0 <
            (alookup top (Recs.categoryTotals ts)).getD 0) ∧
          Recs.generateRecommendations ts monthlyBudget =
            some ⟨"warning",
              "Over budget by $" ++
                jsNumToString |monthlyBudget - Recs.totalSpent ts| ++
                ". Consider reducing spending in " ++ top ++ "."⟩)) ∧
    Recs.generateRecommendations [⟨"expense", 600, "food", ⟨2024, 1, 10⟩⟩] 500 =
      some ⟨"warning", "Over budget by $100. Consider reducing spending in food."⟩ := by
  have hjs100 : jsNumToString 100 = "100" := by
    have hsearch : decExpSearch 100 0 21 = some 0 := by
      rw [decExpSearch]
      norm_num
    rw [jsNumToString, if_neg (by norm_num : ¬(100 : ℚ) < 0), jsNumToStringNN, hsearch]
    norm_num
    decide
  constructor
  · intro ts monthlyBudget
    constructor
    · intro hpos
      simp only [Recs.generateRecommendations, if_pos hpos]
    · intro hneg hne
      obtain ⟨top, l₁, l₂, heq, h₁, h₂, htop⟩ := findTopExpenseCategory_spec ts hne
      refine ⟨top, l₁, l₂, heq, h₁, h₂, ?_⟩
      simp only [Recs.generateRecommendations, if_neg (not_lt.mpr hneg), htop]
  · have hts : Recs.totalSpent [⟨"expense", 600, "food", ⟨2024, 1, 10⟩⟩] = 600 := by
      norm_num [Recs.totalSpent, List.filter_cons]
    have hcat : Recs.categoryTotals [⟨"expense", 600, "food", ⟨2024, 1, 10⟩⟩] =
        [("food", 600)] := by
      norm_num [Recs.categoryTotals, List.filter_cons, alookup, aupdate]
    have htop : Recs.findTopExpenseCategory [⟨"expense", 600, "food", ⟨2024, 1, 10⟩⟩] =
        some "food" := by
      simp [Recs.findTopExpenseCategory, hcat, akeys]
    rw [Recs.generateRecommendations, if_neg (by rw [hts]; norm_num), htop, hts]
    norm_num [hjs100]
    decide

/-- **C10** counterexample: with food 100 and rent 100 in that order (a tie)
and budget 100 the deficit branch fires, and the `reduce` with
`totals[a] > totals[b] ? a : b` keeps the *later* key on a tie, so the warning
names `rent` — the claim's "ties broken by first-encountered key" would name
`food`. -/
theorem surplus_tie_counterexample :
    Recs.generateRecommendations
        [⟨"expense", 100, "food", ⟨2024, 1, 5⟩⟩, ⟨"expense", 100, "rent", ⟨2024, 1, 6⟩⟩]
        100 =
      some ⟨"warning", "Over budget by $100. Consider reducing spending in rent."⟩ ∧
    ("Over budget by $100. Consider reducing spending in rent." : String) ≠
      "Over budget by $100. Consider reducing spending in food." := by
  have hjs100 : jsNumToString 100 = "100" := by
    have hsearch : decExpSearch 100 0 21 = some 0 := by
      rw [decExpSearch]
      norm_num
    rw [jsNumToString, if_neg (by norm_num : ¬(100 : ℚ) < 0), jsNumToStringNN, hsearch]
    norm_num
    decide
  constructor
  · have hts : Recs.totalSpent
        [⟨"expense", 100, "food", ⟨2024, 1, 5⟩⟩,
         ⟨"expense", 100, "rent", ⟨2024, 1, 6⟩⟩] = 200 := by
      norm_num [Recs.totalSpent, List.filter_cons]
    have hcat : Recs.categoryTotals
        [⟨"expense", 100, "food", ⟨2024, 1, 5⟩⟩,
         ⟨"expense", 100, "rent", ⟨2024, 1, 6⟩⟩] =
        [("food", 100), ("rent", 100)] := by
      norm_num [Recs.categoryTotals, List.filter_cons, alookup, aupdate]
      rfl
    have htop : Recs.findTopExpenseCategory
        [⟨"expense", 100, "food", ⟨2024, 1, 5⟩⟩,
         ⟨"expense", 100, "rent", ⟨2024, 1, 6⟩⟩] = some "rent" := by
      rw [Recs.findTopExpenseCategory, hcat]
      norm_num [akeys, alookup]
    rw [Recs.generateRecommendations, if_neg (by rw [hts]; norm_num), htop, hts]
    norm_num [hjs100]
    decide
  · decide

/-- Witness for the amended C10: the deficit branch at budget 500 against one
600 food expense. -/
theorem surplus_recommendations_amended_witness :
    ∃ top l₁ l₂,
      akeys (Recs.categoryTotals [⟨"expense", 600, "food", ⟨2024, 1, 10⟩⟩]) =
        l₁ ++ top :: l₂ ∧
      (∀ k ∈ l₁,
        (alookup k (Recs.categoryTotals [⟨"expense", 600, "food", ⟨2024, 1, 10⟩⟩])).getD 0 ≤
        (alookup top (Recs.categoryTotals [⟨"expense", 600, "food", ⟨2024, 1, 10⟩⟩])).getD 0) ∧
      (∀ k ∈ l₂,
        (alookup k (Recs.categoryTotals [⟨"expense", 600, "food", ⟨2024, 1, 10⟩⟩])).getD 0 <
        (alookup top (Recs.categoryTotals [⟨"expense", 600, "food", ⟨2024, 1, 10⟩⟩])).getD 0) ∧
      Recs.generateRecommendations [⟨"expense", 600, "food", ⟨2024, 1, 10⟩⟩] 500 =
        some ⟨"warning",
          "Over budget by $" ++
            jsNumToString |500 - Recs.totalSpent [⟨"expense", 600, "food", ⟨2024, 1, 10⟩⟩]| ++
            ". Consider reducing spending in " ++ top ++ "."⟩ :=
  (surplus_recommendations_amended.1 [⟨"expense", 600, "food", ⟨2024, 1, 10⟩⟩] 500).2
    (by norm_num [Recs.totalSpent, List.filter_cons])
    (by simp [Recs.categoryTotals, List.filter_cons, alookup, aupdate])
